import Mathlib

/-!
Verification of the esp-hal-embassy time driver
(`esp-hal-embassy/src/time_driver.rs`).

The driver multiplexes logical alarms over a fixed pool of one-shot
hardware timers.  We embed the driver state (the alarm table and the
installed timer pool) and its operations (`init`, `allocate_alarm`,
`set_alarm_callback`, `set_alarm`, `on_interrupt`) shallowly: each
operation is a pure function on an explicit state, returning `Option`
where the Rust code can panic (`none` models a process abort via
`panic!`/`unwrap!` or an out-of-bounds slice index).
-/

namespace TimeDriver

/-- Constant `MAX_SUPPORTED_ALARM_COUNT` from the source: the fixed capacity of
the alarm table. -/
def MAX_SUPPORTED_ALARM_COUNT : Nat := 7

/-- The value `u64::MAX`, the reserved "no deadline" sentinel accepted by
`set_alarm`. -/
def U64_MAX : Nat := 2 ^ 64 - 1

/-- A registered callback: a function pointer together with its opaque
context pointer (`(fn(*mut ()), *mut ())` in the source).  Both are
modelled as abstract identifiers, since the driver only stores and
returns them. -/
abbrev Callback := Nat × Nat

/-- Modelled from the spec: the Hardware Timer Capability (§6) is
external to this crate (`OneShotTimer<AnyTimer>` from `esp-hal`, whose
source is not part of this tree).  We record the observable effect of
each capability call the driver performs: `stop()`, `enable_interrupt`,
`schedule(timeout)`, `clear_interrupt()`, `set_interrupt_handler`. -/
structure Timer where
  /-- Whether the timer's interrupt is enabled (`enable_interrupt`). -/
  interruptEnabled : Bool
  /-- Whether the one-shot countdown is running (`stop` clears it,
  `schedule` starts it). -/
  running : Bool
  /-- The pending-interrupt flag (`clear_interrupt` clears it). -/
  pending : Bool
  /-- The last timeout programmed by `schedule`, if any. -/
  scheduled : Option Nat
  /-- The slot index whose dedicated handler was last bound by
  `set_interrupt_handler`, if any. -/
  handler : Option Nat
deriving DecidableEq, Repr

/-- Struct `AlarmState` from the source: one slot of the alarm table. -/
structure AlarmState where
  /-- Field `callback: Cell<Option<(fn(*mut ()), *mut ())>>`. -/
  callback : Option Callback
  /-- Field `allocated: Cell<bool>`. -/
  allocated : Bool
deriving DecidableEq, Repr

/-- Constructor `AlarmState::new()`: an unallocated slot with no callback. -/
def AlarmState.new : AlarmState :=
  { callback := none, allocated := false }

/-- The driver's shared state: the alarm table
(`EmbassyTimer.alarms`, a fixed array of `MAX_SUPPORTED_ALARM_COUNT`
slots) and the installed timer pool (the `TIMERS` static, `none`
before `init` runs). -/
structure DriverState where
  alarms : List AlarmState
  timers : Option (List Timer)
deriving DecidableEq, Repr

/-- The initial state: all slots fresh (`AlarmState::new()`), no pool
installed. -/
def initState : DriverState :=
  { alarms := List.replicate MAX_SUPPORTED_ALARM_COUNT AlarmState.new
    timers := none }

namespace EmbassyTimer

/-- The per-timer loop body of `EmbassyTimer::init`, iterating over the
supplied timers with their indices: disable the interrupt, stop the
timer, and bind the slot's dedicated handler when the slot is already
allocated.  Indexing `DRIVER.alarms[n]` is modelled by `alarms[n]?`
(`none` would be a panic; it cannot happen since `n < timers.length ≤
MAX_SUPPORTED_ALARM_COUNT = alarms.length`). -/
def initTimers (alarms : List AlarmState) : Nat → List Timer → Option (List Timer)
  | _, [] => some []
  | n, t :: ts =>
    match alarms[n]? with
    | none => none
    | some a =>
      let t := { t with interruptEnabled := false, running := false }
      let t := if a.allocated then { t with handler := some n } else t
      match initTimers alarms (n + 1) ts with
      | none => none
      | some ts' => some (t :: ts')

/-- Function `EmbassyTimer::init(timers)`: panics (`none`) when more than
`MAX_SUPPORTED_ALARM_COUNT` timers are supplied; otherwise resets every
timer, binds handlers for already-allocated slots, and publishes the
pool into `TIMERS`. -/
def init (timers : List Timer) (s : DriverState) : Option DriverState :=
  if timers.length > MAX_SUPPORTED_ALARM_COUNT then none
  else
    match initTimers s.alarms 0 timers with
    | none => none
    | some ts => some { s with timers := some ts }

/-- Function `EmbassyTimer::on_interrupt(id)`: under the critical section,
unwrap the pool (`none` = "Time driver not initialized" panic), index
the timer (`none` = out-of-bounds panic), clear its pending interrupt,
and snapshot the slot's callback.  The snapshot is returned so that the
caller (the interrupt entry point) invokes it outside the critical
section when present. -/
def on_interrupt (s : DriverState) (id : Nat) :
    Option (DriverState × Option Callback) :=
  match s.timers with
  | none => none
  | some timers =>
    match timers[id]? with
    | none => none
    | some timer =>
      let timer := { timer with pending := false }
      match s.alarms[id]? with
      | none => none
      | some alarm =>
        some ({ s with timers := some (timers.set id timer) }, alarm.callback)

/-- Function `EmbassyTimer::arm(timer, timestamp)`: read the current time,
clamp a past-or-present target to a zero timeout, schedule the one-shot
timer and enable its interrupt.  `now` is the value read from the
external time base during the call. -/
def arm (timer : Timer) (timestamp now : Nat) : Timer :=
  let timeout := if timestamp > now then timestamp - now else 0
  { timer with scheduled := some timeout, running := true, interruptEnabled := true }

/-- The scan loop of `allocate_alarm`: iterate over the alarm slots
(`rest` is the suffix of the table starting at absolute index `i`),
skipping allocated slots.  At the first free slot: if the pool is
installed, `timer.get_mut(i)` must succeed (`none` = the "not enough
timers" `unwrap!` panic) and the slot's handler is bound; the slot is
then marked allocated and its index returned.  Result layers: outer
`none` = panic, `some none` = table exhausted, `some (some (i, s'))` =
handle `i` allocated with new state `s'`. -/
def allocGo (s : DriverState) : Nat → List AlarmState → Option (Option (Nat × DriverState))
  | _, [] => some none
  | i, a :: rest =>
    if a.allocated then allocGo s (i + 1) rest
    else
      match s.timers with
      | some ts =>
        match ts[i]? with
        | none => none
        | some t =>
          some (some (i,
            { alarms := s.alarms.set i { a with allocated := true }
              timers := some (ts.set i { t with handler := some i }) }))
      | none =>
        some (some (i,
          { alarms := s.alarms.set i { a with allocated := true }
            timers := none }))

/-- Method `Driver::allocate_alarm`: scan the whole table from index 0. -/
def allocate_alarm (s : DriverState) : Option (Option (Nat × DriverState)) :=
  allocGo s 0 s.alarms

/-- Method `Driver::set_alarm_callback(alarm, callback, ctx)`: index the slot
(`none` = out-of-bounds panic, impossible for handles returned by
`allocate_alarm`) and unconditionally overwrite its callback. -/
def set_alarm_callback (s : DriverState) (alarmId : Nat) (cb : Callback) :
    Option DriverState :=
  match s.alarms[alarmId]? with
  | none => none
  | some a =>
    some { s with alarms := s.alarms.set alarmId { a with callback := some cb } }

/-- Method `Driver::set_alarm(alarm, timestamp)`: the sentinel `u64::MAX`
returns `true` with no further action; otherwise unwrap the pool
(`none` = "Time driver not initialized" panic), index the timer
(`none` = out-of-bounds panic) and arm it.  `now` is the current time
read inside `arm`. -/
def set_alarm (s : DriverState) (alarmId : Nat) (timestamp now : Nat) :
    Option (DriverState × Bool) :=
  if timestamp = U64_MAX then some (s, true)
  else
    match s.timers with
    | none => none
    | some timers =>
      match timers[alarmId]? with
      | none => none
      | some timer =>
        some ({ s with timers := some (timers.set alarmId (arm timer timestamp now)) },
          true)

end EmbassyTimer

/-- First index `≥ i` of a free slot in the suffix `rest` of the alarm
table (the index `allocate_alarm`'s scan stops at). -/
def firstFreeFrom : Nat → List AlarmState → Option Nat
  | _, [] => none
  | i, a :: rest => if a.allocated then firstFreeFrom (i + 1) rest else some i

/-- First free slot index of an alarm table. -/
def firstFree (alarms : List AlarmState) : Option Nat :=
  firstFreeFrom 0 alarms

/-- A concrete reset timer value, used in closed witness statements. -/
def timerW : Timer :=
  { interruptEnabled := false, running := false, pending := false
    scheduled := none, handler := none }

/-- A concrete state with a one-timer pool installed, used in closed
witness statements. -/
def poolStateW : DriverState :=
  { alarms := List.replicate MAX_SUPPORTED_ALARM_COUNT AlarmState.new
    timers := some [timerW] }

/-- The state produced by `init []`: fresh alarm table, empty pool. -/
def emptyPoolState : DriverState :=
  { alarms := List.replicate MAX_SUPPORTED_ALARM_COUNT AlarmState.new
    timers := some [] }

/-- Arming leaves the alarm table untouched whenever `set_alarm` returns. -/
theorem set_alarm_alarms_eq (s : DriverState) (alarmId timestamp now : Nat)
    (s' : DriverState) (r : Bool)
    (h : EmbassyTimer.set_alarm s alarmId timestamp now = some (s', r)) :
    s'.alarms = s.alarms := by
  unfold EmbassyTimer.set_alarm at h
  split at h
  · cases h; rfl
  · split at h
    · cases h
    · split at h
      · cases h
      · cases h; rfl

/-- The scan loop reports exhaustion exactly when its suffix of the
table has no free slot. -/
theorem allocGo_exhausted_iff (s : DriverState) :
    ∀ (rest : List AlarmState) (i : Nat),
      EmbassyTimer.allocGo s i rest = some none ↔ firstFreeFrom i rest = none := by
  intro rest
  induction rest with
  | nil => intro i; simp [EmbassyTimer.allocGo, firstFreeFrom]
  | cons a rest ih =>
    intro i
    cases ha : a.allocated with
    | true => simpa [EmbassyTimer.allocGo, firstFreeFrom, ha] using ih (i + 1)
    | false =>
      simp only [EmbassyTimer.allocGo, firstFreeFrom, ha, Bool.false_eq_true,
        if_false]
      cases hts : s.timers with
      | none => simp
      | some ts => cases hti : ts[i]? <;> simp [hti]

/-- The scan loop panics exactly when the first free slot on its suffix
lies beyond the installed pool's length. -/
theorem allocGo_panic_iff (s : DriverState) :
    ∀ (rest : List AlarmState) (i : Nat),
      EmbassyTimer.allocGo s i rest = none ↔
        ∃ j, firstFreeFrom i rest = some j ∧
          ∃ ts, s.timers = some ts ∧ ts.length ≤ j := by
  intro rest
  induction rest with
  | nil => intro i; simp [EmbassyTimer.allocGo, firstFreeFrom]
  | cons a rest ih =>
    intro i
    cases ha : a.allocated with
    | true => simpa [EmbassyTimer.allocGo, firstFreeFrom, ha] using ih (i + 1)
    | false =>
      simp only [EmbassyTimer.allocGo, firstFreeFrom, ha, Bool.false_eq_true,
        if_false]
      cases hts : s.timers with
      | none => simp
      | some ts =>
        cases hti : ts[i]? with
        | none => simp [hti, List.getElem?_eq_none_iff.mp hti]
        | some t =>
          obtain ⟨hlt, -⟩ := List.getElem?_eq_some_iff.mp hti
          simp [hti]
          omega

/-! ### Claim theorems -/

/-- C1 (amended): `allocate_alarm` returns "none" exactly when every
slot is already allocated; but this is not the only failure mode — the
call aborts the process exactly when the Timer Pool is installed and
the first free slot's index is not covered by the installed pool's
length. -/
theorem allocate_alarm_failure_modes (s : DriverState) :
    (EmbassyTimer.allocate_alarm s = some none ↔ firstFree s.alarms = none) ∧
    (EmbassyTimer.allocate_alarm s = none ↔
      ∃ j, firstFree s.alarms = some j ∧
        ∃ ts, s.timers = some ts ∧ ts.length ≤ j) :=
  ⟨allocGo_exhausted_iff s s.alarms 0, allocGo_panic_iff s s.alarms 0⟩

/-- C1 counterexample: after installing an empty timer pool, slot 0 is
still free, yet `allocate_alarm` panics (the "not enough timers"
`unwrap!`) instead of returning a handle or "none" — so exhaustion is
not the only failure mode and the call can abort, contrary to the
claim. -/
theorem allocate_alarm_abort_counterexample :
    EmbassyTimer.init [] initState = some emptyPoolState ∧
    firstFree emptyPoolState.alarms = some 0 ∧
    EmbassyTimer.allocate_alarm emptyPoolState = none := by
  refine ⟨by decide, by decide, by decide⟩

/-- C2 (amended): for every target time other than the `u64::MAX`
sentinel, `set_alarm` aborts the process exactly when the Timer Pool is
not installed or the handle's slot index is not below the installed
pool's length.  (With the sentinel target time the call returns `true`
without touching the pool, so it does not abort.) -/
theorem set_alarm_abort_iff (s : DriverState) (alarmId timestamp now : Nat)
    (hsent : timestamp ≠ U64_MAX) :
    EmbassyTimer.set_alarm s alarmId timestamp now = none ↔
      (s.timers = none ∨ ∃ ts, s.timers = some ts ∧ ts.length ≤ alarmId) := by
  unfold EmbassyTimer.set_alarm
  rw [if_neg hsent]
  cases hts : s.timers with
  | none => simp
  | some ts =>
    cases hti : ts[alarmId]? with
    | none => simp [hti, List.getElem?_eq_none_iff.mp hti]
    | some t =>
      obtain ⟨hlt, -⟩ := List.getElem?_eq_some_iff.mp hti
      simp [hti]
      omega

/-- C2 witness: a non-sentinel arm request before installation aborts. -/
theorem set_alarm_abort_iff_witness :
    EmbassyTimer.set_alarm initState 0 100 0 = none ↔
      (initState.timers = none ∨
        ∃ ts, initState.timers = some ts ∧ ts.length ≤ 0) :=
  set_alarm_abort_iff initState 0 100 0 (by decide)

/-- C2 counterexample: `set_alarm` called before the Timer Pool is
installed with the sentinel target time `u64::MAX` returns `true` and
leaves the state untouched — it does not abort, contrary to the claim
that every pre-install call aborts for every target time. -/
theorem set_alarm_preinstall_no_abort :
    initState.timers = none ∧
    EmbassyTimer.set_alarm initState 0 U64_MAX 0 = some (initState, true) := by
  refine ⟨rfl, by decide⟩

/-- C3: for every state and every handle, `set_alarm` with the reserved
"no deadline" sentinel `u64::MAX` returns `true` and leaves the whole
state — in particular every hardware timer — untouched. -/
theorem set_alarm_sentinel (s : DriverState) (alarmId now : Nat) :
    EmbassyTimer.set_alarm s alarmId U64_MAX now = some (s, true) := by
  unfold EmbassyTimer.set_alarm
  simp

/-- C10: `set_alarm` never modifies the Alarm Table: whenever it
returns, the whole table — hence every slot's `allocated` flag and
`callback` — is unchanged; its only effect is on the `timers`
component. -/
theorem set_alarm_table_frame (s : DriverState) (alarmId timestamp now : Nat)
    (s' : DriverState) (r : Bool)
    (h : EmbassyTimer.set_alarm s alarmId timestamp now = some (s', r)) :
    s'.alarms = s.alarms ∧
    (∀ i : Nat, (s'.alarms[i]?).map AlarmState.allocated =
      (s.alarms[i]?).map AlarmState.allocated) ∧
    (∀ i : Nat, (s'.alarms[i]?).map AlarmState.callback =
      (s.alarms[i]?).map AlarmState.callback) := by
  have hA := set_alarm_alarms_eq s alarmId timestamp now s' r h
  exact ⟨hA, fun i => by rw [hA], fun i => by rw [hA]⟩

/-- The state produced by arming slot 0 of `poolStateW` for target 100
at current time 5. -/
def armedStateW : DriverState :=
  { alarms := poolStateW.alarms
    timers := some [EmbassyTimer.arm timerW 100 5] }

/-- C10 witness: a successful concrete arm call leaves the table
unchanged. -/
theorem set_alarm_table_frame_witness :
    armedStateW.alarms = poolStateW.alarms ∧
    (∀ i : Nat, (armedStateW.alarms[i]?).map AlarmState.allocated =
      (poolStateW.alarms[i]?).map AlarmState.allocated) ∧
    (∀ i : Nat, (armedStateW.alarms[i]?).map AlarmState.callback =
      (poolStateW.alarms[i]?).map AlarmState.callback) :=
  set_alarm_table_frame poolStateW 0 100 5 armedStateW true (by decide)

/-- C4: for every non-sentinel target time, when the pool is installed
and covers the handle's slot, `set_alarm` replaces that slot's hardware
timer with the armed timer — whose programmed timeout is
`target_time - now` when `target_time > now` and `0` otherwise (a past
or present target is clamped, never rejected), and whose interrupt is
enabled — and returns `true`. -/
theorem set_alarm_programs_delta (s : DriverState)
    (alarmId timestamp now : Nat) (ts : List Timer) (tm : Timer)
    (hsent : timestamp ≠ U64_MAX) (hts : s.timers = some ts)
    (hti : ts[alarmId]? = some tm) :
    EmbassyTimer.set_alarm s alarmId timestamp now =
      some ({ s with
        timers := some (ts.set alarmId (EmbassyTimer.arm tm timestamp now)) },
        true) ∧
    EmbassyTimer.arm tm timestamp now =
      { tm with
        scheduled := some (if now < timestamp then timestamp - now else 0)
        running := true
        interruptEnabled := true } := by
  constructor
  · unfold EmbassyTimer.set_alarm
    rw [if_neg hsent]
    simp [hts, hti]
  · rfl

/-- C4 witness: arming slot 0 for target 100 at current time 5 programs
a 95-tick timeout. -/
theorem set_alarm_programs_delta_witness :
    EmbassyTimer.set_alarm poolStateW 0 100 5 =
      some ({ poolStateW with
        timers := some ([timerW].set 0 (EmbassyTimer.arm timerW 100 5)) },
        true) ∧
    EmbassyTimer.arm timerW 100 5 =
      { timerW with
        scheduled := some (if 5 < 100 then 100 - 5 else 0)
        running := true
        interruptEnabled := true } :=
  set_alarm_programs_delta poolStateW 0 100 5 [timerW] timerW
    (by decide) rfl rfl

/-- C8: dispatch for slot `id` (with the pool installed and the timer
and slot present) clears timer `id`'s pending-interrupt flag, returns
the slot's currently registered callback as the snapshot handed to the
caller for invocation outside the critical region, and changes nothing
else: the alarm table is untouched and every other timer is unchanged.
When no callback is registered the snapshot is `none` and the only
effect is the cleared flag. -/
theorem on_interrupt_dispatch (s : DriverState) (id : Nat)
    (ts : List Timer) (tm : Timer) (a : AlarmState)
    (hts : s.timers = some ts) (hti : ts[id]? = some tm)
    (ha : s.alarms[id]? = some a) :
    EmbassyTimer.on_interrupt s id =
      some ({ s with timers := some (ts.set id { tm with pending := false }) },
        a.callback) ∧
    (ts.set id { tm with pending := false })[id]? =
      some { tm with pending := false } ∧
    (∀ k : Nat, k ≠ id → (ts.set id { tm with pending := false })[k]? = ts[k]?) := by
  obtain ⟨hlt, -⟩ := List.getElem?_eq_some_iff.mp hti
  refine ⟨?_, ?_, ?_⟩
  · unfold EmbassyTimer.on_interrupt
    simp [hts, hti, ha]
  · exact List.getElem?_set_self (by simpa using hlt)
  · intro k hk
    exact List.getElem?_set_ne (fun h => hk h.symm)

/-- C8 witness: dispatch on a concrete armed state clears the pending
flag and snapshots the (absent) callback. -/
theorem on_interrupt_dispatch_witness :
    EmbassyTimer.on_interrupt poolStateW 0 =
      some ({ poolStateW with
        timers := some ([timerW].set 0 { timerW with pending := false }) },
        AlarmState.new.callback) ∧
    ([timerW].set 0 { timerW with pending := false })[0]? =
      some { timerW with pending := false } ∧
    (∀ k : Nat, k ≠ 0 →
      ([timerW].set 0 { timerW with pending := false })[k]? = [timerW][k]?) :=
  on_interrupt_dispatch poolStateW 0 [timerW] timerW AlarmState.new
    rfl rfl (by decide)

/-- Registration via `set_alarm_callback` succeeds exactly by overwriting the slot's
callback, leaving everything else (in particular the timer pool)
unchanged. -/
theorem set_alarm_callback_eq (s : DriverState) (alarmId : Nat) (cb : Callback)
    (s' : DriverState)
    (h : EmbassyTimer.set_alarm_callback s alarmId cb = some s') :
    ∃ a, s.alarms[alarmId]? = some a ∧
      s' = { s with
        alarms := s.alarms.set alarmId { a with callback := some cb } } := by
  unfold EmbassyTimer.set_alarm_callback at h
  split at h
  · cases h
  · cases h
    rename_i a heq
    exact ⟨a, heq, rfl⟩

/-- C7: `set_alarm_callback` on a slot that exists never fails,
unconditionally overwrites any previously registered callback, and
leaves the timer pool untouched; after registering `cbB` over `cbA` on
the same handle, the slot holds `cbB` and a subsequent dispatch
snapshots (hence invokes) `cbB` only — never `cbA`. -/
theorem set_alarm_callback_overwrite (s : DriverState) (alarmId : Nat)
    (cbA cbB : Callback) (a : AlarmState)
    (ha : s.alarms[alarmId]? = some a) :
    EmbassyTimer.set_alarm_callback s alarmId cbA =
      some { s with
        alarms := s.alarms.set alarmId { a with callback := some cbA } } ∧
    (∀ s1 s2 : DriverState,
      EmbassyTimer.set_alarm_callback s alarmId cbA = some s1 →
      EmbassyTimer.set_alarm_callback s1 alarmId cbB = some s2 →
      s2.timers = s.timers ∧
      s2.alarms[alarmId]? = some { a with callback := some cbB } ∧
      (∀ (s3 : DriverState) (cb : Option Callback),
        EmbassyTimer.on_interrupt s2 alarmId = some (s3, cb) →
        cb = some cbB)) := by
  obtain ⟨hlt, -⟩ := List.getElem?_eq_some_iff.mp ha
  have h1 : EmbassyTimer.set_alarm_callback s alarmId cbA =
      some { s with
        alarms := s.alarms.set alarmId { a with callback := some cbA } } := by
    unfold EmbassyTimer.set_alarm_callback
    simp [ha]
  refine ⟨h1, ?_⟩
  intro s1 s2 hs1 hs2
  rw [h1] at hs1
  cases hs1
  obtain ⟨a', ha', hs2'⟩ := set_alarm_callback_eq _ _ _ _ hs2
  rw [List.getElem?_set_self hlt] at ha'
  cases ha'
  subst hs2'
  have hget : ((s.alarms.set alarmId { a with callback := some cbA }).set alarmId
      { callback := some cbB, allocated := a.allocated })[alarmId]? =
      some { callback := some cbB, allocated := a.allocated } :=
    List.getElem?_set_self (by simpa using hlt)
  refine ⟨rfl, hget, ?_⟩
  intro s3 cb h3
  unfold EmbassyTimer.on_interrupt at h3
  split at h3
  · cases h3
  · split at h3
    · cases h3
    · split at h3
      · cases h3
      · rename_i alarm heqa
        rw [hget] at heqa
        cases heqa
        cases h3
        rfl

/-- The state reached from `initState` by allocating slot 0. -/
def allocState1 : DriverState :=
  { alarms := { callback := none, allocated := true } ::
      List.replicate 6 AlarmState.new
    timers := none }

/-- C7 witness: overwriting callback `(1, 2)` with `(3, 4)` on slot 0 of
`allocState1`. -/
theorem set_alarm_callback_overwrite_witness :
    EmbassyTimer.set_alarm_callback allocState1 0 (1, 2) =
      some { allocState1 with
        alarms := allocState1.alarms.set 0
          { ({ callback := none, allocated := true } : AlarmState) with
            callback := some (1, 2) } } ∧
    (∀ s1 s2 : DriverState,
      EmbassyTimer.set_alarm_callback allocState1 0 (1, 2) = some s1 →
      EmbassyTimer.set_alarm_callback s1 0 (3, 4) = some s2 →
      s2.timers = allocState1.timers ∧
      s2.alarms[0]? = some
        { ({ callback := none, allocated := true } : AlarmState) with
          callback := some (3, 4) } ∧
      (∀ (s3 : DriverState) (cb : Option Callback),
        EmbassyTimer.on_interrupt s2 0 = some (s3, cb) →
        cb = some (3, 4))) :=
  set_alarm_callback_overwrite allocState1 0 (1, 2) (3, 4)
    { callback := none, allocated := true } (by decide)

/-- The loop `initTimers` never panics while the alarm table covers the indices
it visits, and resets every timer, binding slot `i + k`'s handler
exactly when that slot is allocated. -/
theorem initTimers_spec (alarms : List AlarmState) :
    ∀ (rest : List Timer) (i : Nat), i + rest.length ≤ alarms.length →
      ∃ out, EmbassyTimer.initTimers alarms i rest = some out ∧
        out.length = rest.length ∧
        ∀ (k : Nat) (tm : Timer), rest[k]? = some tm →
          ∃ a, alarms[i + k]? = some a ∧
            out[k]? = some (if a.allocated then
              { tm with interruptEnabled := false, running := false
                        handler := some (i + k) }
            else { tm with interruptEnabled := false, running := false }) := by
  intro rest
  induction rest with
  | nil =>
    intro i _
    exact ⟨[], rfl, rfl, by intro k tm h; cases h⟩
  | cons t rest ih =>
    intro i hlen
    have hi : i < alarms.length := by simp at hlen; omega
    obtain ⟨a, ha⟩ : ∃ a, alarms[i]? = some a := by
      exact ⟨alarms[i], by simp [List.getElem?_eq_some_iff, hi]⟩
    obtain ⟨out, hout, houtlen, hspec⟩ := ih (i + 1) (by simp at hlen ⊢; omega)
    refine ⟨(if a.allocated then
        { t with interruptEnabled := false, running := false
                 handler := some i }
      else { t with interruptEnabled := false, running := false }) :: out,
      ?_, by simp [houtlen], ?_⟩
    · unfold EmbassyTimer.initTimers
      rw [ha, hout]
    · intro k tm hk
      cases k with
      | zero =>
        simp only [List.getElem?_cons_zero, Option.some.injEq] at hk
        subst hk
        exact ⟨a, by simpa using ha,
          by cases hall : a.allocated <;> simp [hall]⟩
      | succ k =>
        simp only [List.getElem?_cons_succ] at hk ⊢
        obtain ⟨a', ha', hout'⟩ := hspec k tm hk
        refine ⟨a', ?_, ?_⟩
        · have : i + 1 + k = i + (k + 1) := by omega
          rwa [this] at ha'
        · have : i + 1 + k = i + (k + 1) := by omega
          rwa [this] at hout'

/-- C9: `init` aborts exactly on oversized input; on a pool of length
`≤ CAPACITY` (with the full-size alarm table) it publishes the whole
pool into shared state — the result state differs from the input only
by `timers := some out` — where every supplied timer has been reset
(interrupt disabled, stopped) and the slots already marked allocated
have their dedicated handler bound. -/
theorem init_resets_and_publishes :
    (∀ (ts : List Timer) (s : DriverState),
      MAX_SUPPORTED_ALARM_COUNT < ts.length → EmbassyTimer.init ts s = none) ∧
    (∀ (ts : List Timer) (s : DriverState),
      ts.length ≤ MAX_SUPPORTED_ALARM_COUNT →
      s.alarms.length = MAX_SUPPORTED_ALARM_COUNT →
      ∃ out, EmbassyTimer.init ts s = some { s with timers := some out } ∧
        out.length = ts.length ∧
        ∀ (k : Nat) (tm : Timer), ts[k]? = some tm →
          ∃ a, s.alarms[k]? = some a ∧
            out[k]? = some (if a.allocated then
              { tm with interruptEnabled := false, running := false
                        handler := some k }
            else { tm with interruptEnabled := false, running := false })) := by
  constructor
  · intro ts s hlen
    unfold EmbassyTimer.init
    rw [if_pos hlen]
  · intro ts s hlen halen
    obtain ⟨out, hout, houtlen, hspec⟩ :=
      initTimers_spec s.alarms ts 0 (by omega)
    refine ⟨out, ?_, houtlen, ?_⟩
    · unfold EmbassyTimer.init
      rw [if_neg (by omega), hout]
    · intro k tm hk
      simpa using hspec k tm hk

/-- A timer left in a dirty hardware state, used to witness the reset
performed by `init`. -/
def timerHot : Timer :=
  { interruptEnabled := true, running := true, pending := false
    scheduled := none, handler := none }

/-- C9 witness: installing one dirty timer over a table whose slot 0 is
allocated resets the timer and binds slot 0's handler. -/
theorem init_resets_and_publishes_witness :
    ∃ out, EmbassyTimer.init [timerHot] allocState1 =
        some { allocState1 with timers := some out } ∧
      out.length = [timerHot].length ∧
      ∀ (k : Nat) (tm : Timer), [timerHot][k]? = some tm →
        ∃ a, allocState1.alarms[k]? = some a ∧
          out[k]? = some (if a.allocated then
            { tm with interruptEnabled := false, running := false
                      handler := some k }
          else { tm with interruptEnabled := false, running := false }) :=
  init_resets_and_publishes.2 [timerHot] allocState1 (by decide) (by decide)

/-- When the scan loop (running on the suffix of the table at index `i`)
returns a handle, the handle is the first free index on that suffix,
that slot is marked allocated (everything else in the table unchanged),
and the pool is updated only at that index (handler bound) when
installed. -/
theorem allocGo_success (s : DriverState) :
    ∀ (rest : List AlarmState) (i : Nat), rest = s.alarms.drop i →
      ∀ (j : Nat) (s' : DriverState),
        EmbassyTimer.allocGo s i rest = some (some (j, s')) →
        firstFreeFrom i rest = some j ∧
        ∃ a, s.alarms[j]? = some a ∧ a.allocated = false ∧
          s'.alarms = s.alarms.set j { a with allocated := true } ∧
          (s.timers = none → s'.timers = none) ∧
          (∀ ts, s.timers = some ts →
            ∃ t, ts[j]? = some t ∧
              s'.timers = some (ts.set j { t with handler := some j })) := by
  intro rest
  induction rest with
  | nil => intro i _ j s' h; cases h
  | cons a rest ih =>
    intro i hdrop j s' h
    have hai : s.alarms[i]? = some a := by
      have h0 : (s.alarms.drop i)[0]? = some a := by
        rw [← hdrop]; exact List.getElem?_cons_zero
      rwa [List.getElem?_drop, Nat.add_zero] at h0
    have hdrop' : rest = s.alarms.drop (i + 1) := by
      have := congrArg List.tail hdrop
      simpa [List.tail_drop] using this
    cases ha : a.allocated with
    | true =>
      rw [EmbassyTimer.allocGo] at h
      rw [ha] at h
      simp only [if_true] at h
      have := ih (i + 1) hdrop' j s' h
      simpa [firstFreeFrom, ha] using this
    | false =>
      rw [EmbassyTimer.allocGo] at h
      rw [ha] at h
      simp only [Bool.false_eq_true, if_false] at h
      split at h
      · rename_i ts hts
        split at h
        · cases h
        · rename_i t hti
          cases h
          refine ⟨by simp [firstFreeFrom, ha], a, hai, ha, rfl, ?_, ?_⟩
          · intro hc; rw [hts] at hc; cases hc
          · intro ts' hc
            rw [hts] at hc
            cases hc
            exact ⟨t, hti, rfl⟩
      · rename_i hts
        cases h
        refine ⟨by simp [firstFreeFrom, ha], a, hai, ha, rfl, fun _ => rfl, ?_⟩
        intro ts hc
        rw [hts] at hc
        cases hc

/-- Every index before the one `firstFreeFrom i` returns holds an
allocated slot, and the returned index holds a free slot. -/
theorem firstFreeFrom_min :
    ∀ (l : List AlarmState) (i j : Nat), firstFreeFrom i l = some j →
      i ≤ j ∧
      (∀ k : Nat, k < j - i → ∃ a, l[k]? = some a ∧ a.allocated = true) := by
  intro l
  induction l with
  | nil => intro i j h; cases h
  | cons a l ih =>
    intro i j h
    cases ha : a.allocated with
    | true =>
      rw [firstFreeFrom, ha] at h
      simp only [if_true] at h
      obtain ⟨hij, hmin⟩ := ih (i + 1) j h
      refine ⟨by omega, ?_⟩
      intro k hk
      cases k with
      | zero => exact ⟨a, List.getElem?_cons_zero, ha⟩
      | succ k =>
        simp only [List.getElem?_cons_succ]
        exact hmin k (by omega)
    | false =>
      rw [firstFreeFrom, ha] at h
      simp only [Bool.false_eq_true, if_false, Option.some.injEq] at h
      subst h
      exact ⟨Nat.le_refl i, fun k hk => absurd hk (by omega)⟩

/-- Repeated allocation: perform `n` successive `allocate_alarm` calls,
collecting the returned handles; `none` when any call panics or reports
exhaustion. -/
def allocHandles : Nat → DriverState → Option (List Nat × DriverState)
  | 0, s => some ([], s)
  | n + 1, s =>
    match EmbassyTimer.allocate_alarm s with
    | some (some (i, s')) =>
      match allocHandles n s' with
      | some (hs, s'') => some (i :: hs, s'')
      | none => none
    | _ => none

/-- C6: whenever `allocate_alarm` returns a handle, it is the first
free slot in index order — every earlier slot is allocated, the
returned slot was free and is now marked allocated with the rest of the
table unchanged; consequently, starting from the initial state,
`CAPACITY` successive calls yield the distinct handles `0..CAPACITY-1`
and the `(CAPACITY+1)`-th call yields "none". -/
theorem allocate_scan_order :
    (∀ (s : DriverState) (j : Nat) (s' : DriverState),
      EmbassyTimer.allocate_alarm s = some (some (j, s')) →
      firstFree s.alarms = some j ∧
      (∀ k : Nat, k < j → ∃ a, s.alarms[k]? = some a ∧ a.allocated = true) ∧
      ∃ a, s.alarms[j]? = some a ∧ a.allocated = false ∧
        s'.alarms = s.alarms.set j { a with allocated := true }) ∧
    ((allocHandles MAX_SUPPORTED_ALARM_COUNT initState).map Prod.fst =
      some [0, 1, 2, 3, 4, 5, 6] ∧
    (allocHandles MAX_SUPPORTED_ALARM_COUNT initState).bind
      (fun p => EmbassyTimer.allocate_alarm p.2) = some none) := by
  constructor
  · intro s j s' h
    obtain ⟨hff, a, hga, hfree, halarms, -⟩ :=
      allocGo_success s s.alarms 0 (by rw [List.drop_zero]) j s' h
    obtain ⟨-, hmin⟩ := firstFreeFrom_min s.alarms 0 j hff
    exact ⟨hff, by simpa using hmin, a, hga, hfree, halarms⟩
  · exact ⟨by decide, by decide⟩

/-- C6 witness: the first allocation from the initial state yields
handle 0 and marks slot 0. -/
theorem allocate_scan_order_witness :
    firstFree initState.alarms = some 0 ∧
    (∀ k : Nat, k < 0 →
      ∃ a, initState.alarms[k]? = some a ∧ a.allocated = true) ∧
    ∃ a, initState.alarms[0]? = some a ∧ a.allocated = false ∧
      allocState1.alarms = initState.alarms.set 0 { a with allocated := true } :=
  allocate_scan_order.1 initState 0 allocState1 (by decide)

/-- Installation leaves the alarm table untouched whenever `init` returns. -/
theorem init_alarms_eq (ts : List Timer) (s s' : DriverState)
    (h : EmbassyTimer.init ts s = some s') : s'.alarms = s.alarms := by
  unfold EmbassyTimer.init at h
  split at h
  · cases h
  · split at h
    · cases h
    · cases h; rfl

/-- Dispatch via `on_interrupt` leaves the alarm table untouched whenever it
returns. -/
theorem on_interrupt_alarms_eq (s : DriverState) (id : Nat)
    (s' : DriverState) (cb : Option Callback)
    (h : EmbassyTimer.on_interrupt s id = some (s', cb)) :
    s'.alarms = s.alarms := by
  unfold EmbassyTimer.on_interrupt at h
  split at h
  · cases h
  · split at h
    · cases h
    · split at h
      · cases h
      · cases h; rfl

/-- A successful `allocate_alarm` marks the first free slot allocated
and changes no other slot. -/
theorem allocate_alarm_eq (s : DriverState) (i : Nat) (s' : DriverState)
    (h : EmbassyTimer.allocate_alarm s = some (some (i, s'))) :
    ∃ a, s.alarms[i]? = some a ∧ a.allocated = false ∧
      s'.alarms = s.alarms.set i { a with allocated := true } := by
  obtain ⟨-, a, hga, hfree, halarms, -⟩ :=
    allocGo_success s s.alarms 0 (by rw [List.drop_zero]) i s' h
  exact ⟨a, hga, hfree, halarms⟩

/-- The whole system as exercised through the public contract: the
driver state together with the set of handles `allocate_alarm` has
returned so far. -/
structure Sys where
  drv : DriverState
  issued : List Nat

/-- One public operation, successfully executed (aborting calls do not
produce a next state).  Handle-taking operations are restricted to
handles previously returned by `allocate_alarm`, as the claim
requires. -/
inductive Step : Sys → Sys → Prop where
  | installPool (σ : Sys) (ts : List Timer) (d' : DriverState)
      (h : EmbassyTimer.init ts σ.drv = some d') : Step σ ⟨d', σ.issued⟩
  | allocSome (σ : Sys) (i : Nat) (d' : DriverState)
      (h : EmbassyTimer.allocate_alarm σ.drv = some (some (i, d'))) :
      Step σ ⟨d', i :: σ.issued⟩
  | allocNone (σ : Sys)
      (h : EmbassyTimer.allocate_alarm σ.drv = some none) : Step σ σ
  | setCallback (σ : Sys) (hdl : Nat) (cb : Callback) (d' : DriverState)
      (hmem : hdl ∈ σ.issued)
      (h : EmbassyTimer.set_alarm_callback σ.drv hdl cb = some d') :
      Step σ ⟨d', σ.issued⟩
  | setAlarm (σ : Sys) (hdl timestamp now : Nat) (d' : DriverState) (r : Bool)
      (hmem : hdl ∈ σ.issued)
      (h : EmbassyTimer.set_alarm σ.drv hdl timestamp now = some (d', r)) :
      Step σ ⟨d', σ.issued⟩
  | dispatch (σ : Sys) (id : Nat) (d' : DriverState) (cb : Option Callback)
      (h : EmbassyTimer.on_interrupt σ.drv id = some (d', cb)) :
      Step σ ⟨d', σ.issued⟩

/-- States reachable from the fresh driver through the public
operations. -/
inductive Reachable : Sys → Prop where
  | start : Reachable ⟨initState, []⟩
  | step (σ σ' : Sys) (hr : Reachable σ) (hs : Step σ σ') : Reachable σ'

/-- Slot `i` exists and is marked allocated. -/
def allocatedAt (d : DriverState) (i : Nat) : Prop :=
  ∃ a, d.alarms[i]? = some a ∧ a.allocated = true

/-- Being allocated only depends on the alarm table. -/
theorem allocatedAt_of_alarms_eq {d d' : DriverState}
    (h : d'.alarms = d.alarms) {i : Nat} (ha : allocatedAt d i) :
    allocatedAt d' i := by
  unfold allocatedAt at ha ⊢
  rw [h]
  exact ha

/-- No public operation ever resets a slot's `allocated` flag: along
every step, allocated slots stay allocated. -/
theorem step_allocated_mono (σ σ' : Sys) (h : Step σ σ') (i : Nat)
    (ha : allocatedAt σ.drv i) : allocatedAt σ'.drv i := by
  cases h with
  | installPool ts d' hinit =>
    exact allocatedAt_of_alarms_eq (init_alarms_eq ts σ.drv d' hinit) ha
  | allocSome j d' halloc =>
    obtain ⟨a, hga, -, halarms⟩ := allocate_alarm_eq σ.drv j d' halloc
    obtain ⟨hlt, -⟩ := List.getElem?_eq_some_iff.mp hga
    obtain ⟨a0, hga0, hall0⟩ := ha
    by_cases hij : i = j
    · subst hij
      exact ⟨{ a with allocated := true },
        by rw [halarms]; exact List.getElem?_set_self hlt, rfl⟩
    · exact ⟨a0, by rw [halarms,
        List.getElem?_set_ne (fun hh => hij hh.symm)]; exact hga0, hall0⟩
  | allocNone halloc => exact ha
  | setCallback hdl cb d' hmem hcb =>
    obtain ⟨a, hga, heq⟩ := set_alarm_callback_eq σ.drv hdl cb d' hcb
    have halarms : d'.alarms =
        σ.drv.alarms.set hdl { a with callback := some cb } := by rw [heq]
    obtain ⟨hlt, -⟩ := List.getElem?_eq_some_iff.mp hga
    obtain ⟨a0, hga0, hall0⟩ := ha
    by_cases hih : i = hdl
    · subst hih
      have ha0a : a0 = a := by rw [hga] at hga0; cases hga0; rfl
      subst ha0a
      exact ⟨{ a0 with callback := some cb },
        by rw [halarms]; exact List.getElem?_set_self hlt, hall0⟩
    · refine ⟨a0, ?_, hall0⟩
      rw [halarms, List.getElem?_set_ne (fun hh => hih hh.symm)]
      exact hga0
  | setAlarm hdl timestamp now d' r hmem hsa =>
    exact allocatedAt_of_alarms_eq
      (set_alarm_alarms_eq σ.drv hdl timestamp now d' r hsa) ha
  | dispatch id d' cb hoi =>
    exact allocatedAt_of_alarms_eq
      (on_interrupt_alarms_eq σ.drv id d' cb hoi) ha

/-- Every slot whose callback is set is marked allocated. -/
def CallbackInv (d : DriverState) : Prop :=
  ∀ (i : Nat) (a : AlarmState), d.alarms[i]? = some a →
    a.callback.isSome = true → a.allocated = true

/-- The callback invariant only depends on the alarm table. -/
theorem callbackInv_of_alarms_eq {d d' : DriverState}
    (h : d'.alarms = d.alarms) (hc : CallbackInv d) : CallbackInv d' := by
  intro i a hga
  rw [h] at hga
  exact hc i a hga

/-- The inductive invariant behind C5: every issued handle names an
allocated slot, and every slot with a callback is allocated. -/
def SysInv (σ : Sys) : Prop :=
  (∀ hdl ∈ σ.issued, allocatedAt σ.drv hdl) ∧ CallbackInv σ.drv

/-- The invariant holds in every reachable system state. -/
theorem reachable_inv (σ : Sys) (h : Reachable σ) : SysInv σ := by
  induction h with
  | start =>
    constructor
    · intro hdl hm
      cases hm
    · intro i a hga hcb
      unfold initState at hga
      rw [List.getElem?_replicate] at hga
      split at hga
      · cases hga
        simp [AlarmState.new] at hcb
      · cases hga
  | step σ σ' hr hs ih =>
    obtain ⟨ih1, ih2⟩ := ih
    constructor
    · intro hdl hm
      cases hs with
      | allocSome j d' halloc =>
        obtain ⟨a, hga, hfree, halarms⟩ := allocate_alarm_eq σ.drv j d' halloc
        obtain ⟨hlt, -⟩ := List.getElem?_eq_some_iff.mp hga
        cases hm with
        | head =>
          refine ⟨{ a with allocated := true }, ?_, rfl⟩
          rw [halarms]
          exact List.getElem?_set_self hlt
        | tail _ hm' =>
          exact step_allocated_mono σ ⟨d', j :: σ.issued⟩
            (Step.allocSome σ j d' halloc) hdl (ih1 hdl hm')
      | installPool ts d' hinit =>
        exact step_allocated_mono σ ⟨d', σ.issued⟩
          (Step.installPool σ ts d' hinit) hdl (ih1 hdl hm)
      | allocNone halloc => exact ih1 hdl hm
      | setCallback hdl2 cb d' hmem hcb =>
        exact step_allocated_mono σ ⟨d', σ.issued⟩
          (Step.setCallback σ hdl2 cb d' hmem hcb) hdl (ih1 hdl hm)
      | setAlarm hdl2 timestamp now d' r hmem hsa =>
        exact step_allocated_mono σ ⟨d', σ.issued⟩
          (Step.setAlarm σ hdl2 timestamp now d' r hmem hsa) hdl (ih1 hdl hm)
      | dispatch id d' cb hoi =>
        exact step_allocated_mono σ ⟨d', σ.issued⟩
          (Step.dispatch σ id d' cb hoi) hdl (ih1 hdl hm)
    · cases hs with
      | installPool ts d' hinit =>
        exact callbackInv_of_alarms_eq (init_alarms_eq ts σ.drv d' hinit) ih2
      | allocNone halloc => exact ih2
      | setAlarm hdl timestamp now d' r hmem hsa =>
        exact callbackInv_of_alarms_eq
          (set_alarm_alarms_eq σ.drv hdl timestamp now d' r hsa) ih2
      | dispatch id d' cb hoi =>
        exact callbackInv_of_alarms_eq
          (on_interrupt_alarms_eq σ.drv id d' cb hoi) ih2
      | allocSome j d' halloc =>
        obtain ⟨a, hga, hfree, halarms⟩ := allocate_alarm_eq σ.drv j d' halloc
        obtain ⟨hlt, -⟩ := List.getElem?_eq_some_iff.mp hga
        have hres : CallbackInv d' := by
          intro i a' hga' hcb'
          rw [halarms] at hga'
          by_cases hij : i = j
          · subst hij
            rw [List.getElem?_set_self hlt] at hga'
            cases hga'
            rfl
          · rw [List.getElem?_set_ne (fun hh => hij hh.symm)] at hga'
            exact ih2 i a' hga' hcb'
        exact hres
      | setCallback hdl cb d' hmem hcb =>
        obtain ⟨a, hga, heq⟩ := set_alarm_callback_eq σ.drv hdl cb d' hcb
        have halarms : d'.alarms =
            σ.drv.alarms.set hdl { a with callback := some cb } := by rw [heq]
        obtain ⟨hlt, -⟩ := List.getElem?_eq_some_iff.mp hga
        have hres : CallbackInv d' := by
          intro i a' hga' hcb'
          rw [halarms] at hga'
          by_cases hih : i = hdl
          · subst hih
            rw [List.getElem?_set_self hlt] at hga'
            cases hga'
            obtain ⟨a0, hga0, hall0⟩ := ih1 _ hmem
            rw [hga] at hga0
            cases hga0
            exact hall0
          · rw [List.getElem?_set_ne (fun hh => hih hh.symm)] at hga'
            exact ih2 i a' hga' hcb'
        exact hres

/-- C5: in every state reachable through the public operations (using
only handles returned by `allocate_alarm`), every slot with a set
callback has `allocated = true`; and no step ever resets an allocated
slot back to unallocated. -/
theorem callback_only_when_allocated :
    (∀ σ : Sys, Reachable σ → CallbackInv σ.drv) ∧
    (∀ σ σ' : Sys, Step σ σ' → ∀ i : Nat,
      allocatedAt σ.drv i → allocatedAt σ'.drv i) :=
  ⟨fun σ h => (reachable_inv σ h).2, step_allocated_mono⟩

/-- The state reached from `allocState1` by registering callback
`(1, 2)` on handle 0. -/
def cbState1 : DriverState :=
  { alarms := { callback := some (1, 2), allocated := true } ::
      List.replicate 6 AlarmState.new
    timers := none }

/-- C5 witness: a concrete reachable state — allocate handle 0, then
register a callback on it — in which the slot holding a callback is
indeed allocated. -/
theorem callback_only_when_allocated_witness :
    ({ callback := some (1, 2), allocated := true } : AlarmState).allocated =
      true :=
  callback_only_when_allocated.1 ⟨cbState1, [0]⟩
    (Reachable.step ⟨allocState1, [0]⟩ ⟨cbState1, [0]⟩
      (Reachable.step ⟨initState, []⟩ ⟨allocState1, [0]⟩ Reachable.start
        (Step.allocSome ⟨initState, []⟩ 0 allocState1 (by decide)))
      (Step.setCallback ⟨allocState1, [0]⟩ 0 (1, 2) cbState1
        (List.Mem.head _) (by decide)))
    0 { callback := some (1, 2), allocated := true } (by decide) (by decide)

end TimeDriver
